import Mathlib

/-!
Verification of the hotel-order pivot engine (`new_pivot_hotel.py`).

The Python source is shallowly embedded: a pandas `DataFrame` of normalized
order rows becomes a `List Record`; pandas `unique` / `drop_duplicates`
(which keep the first occurrence) become `uniqueFirst`; pandas
`sort_values` / Python `sorted` become `List.insertionSort` (stable, as the
Python sorts are: `sorted` is stable and numpy's sort is insertion sort on
the small arrays involved); quantities are modelled as `Int` (pandas
`to_numeric` on sheet cells); dates as day/month/year triples of naturals.
-/

namespace Hotel

/-- A normalized order row, the output of `process_data_for_date`:
columns MAIN HOTEL NAME, VENDOR, PIVOT_VEGETABLE_NAME, TELUGU NAME,
UNITS, QUANTITY of the sheet. -/
structure Record where
  hotel : String
  vendor : String
  vegetable : String
  teluguName : String
  unit : String
  quantity : Int
deriving Repr, DecidableEq

/-- A raw sheet row before normalization: DATE and QUANTITY are still the
strings fetched from the sheet. -/
structure RawRecord where
  date : String
  hotel : String
  vendor : String
  vegetable : String
  teluguName : String
  unit : String
  quantity : String
deriving Repr, DecidableEq

/-- One row of a pivot table: the `report_row` dict built by
`create_vegetable_report_data` / `create_vendor_report_data`; `cells` holds
the formatted per-hotel quantities in hotel-column order. -/
structure PivotRow where
  displayName : String
  teluguName : String
  cells : List String
  total : String
deriving Repr, DecidableEq

/-- A pivot table: the hotel column list together with the row list
(the `result_df` DataFrame). -/
structure PivotTable where
  hotels : List String
  rows : List PivotRow
deriving Repr, DecidableEq

/-- One hotel's section of the individual-hotel report: its sorted
`(displayName, teluguName, formattedQuantity)` items, and whether the
"No orders found" branch was taken. -/
structure HotelSection where
  hotel : String
  noData : Bool
  items : List (String × String × String)
deriving Repr, DecidableEq

/-- Result of `process_data_for_date`: the normalized rows, plus whether
the `st.warning` ("No data found for date") was emitted. -/
structure ProcessResult where
  rows : List Record
  warned : Bool
deriving Repr, DecidableEq

/-- Worker for `uniqueFirst`: keep each element not yet seen, in order. -/
def uniqueFirstAux {α : Type} [DecidableEq α] (seen : List α) : List α → List α
  | [] => []
  | a :: l =>
    if a ∈ seen then uniqueFirstAux seen l
    else a :: uniqueFirstAux (a :: seen) l

/-- First-occurrence deduplication: pandas `Series.unique` and
`DataFrame.drop_duplicates`, which keep the first occurrence of each value
in order. -/
def uniqueFirst {α : Type} [DecidableEq α] (l : List α) : List α :=
  uniqueFirstAux [] l

/-- Decide `String` order through the character list, so that concrete
sorts evaluate by kernel reduction (the order itself is unchanged:
`String.le_iff_toList_le`). -/
instance (priority := 2000) decLeStringData :
    DecidableRel (fun a b : String => a ≤ b) :=
  fun a b => decidable_of_iff (a.toList ≤ b.toList) String.le_iff_toList_le.symm

/-- Cell / total formatting `f"{qty} {units}"`. -/
def fmtQty (q : Int) (u : String) : String := toString q ++ " " ++ u

/-- The `desired_hotel_order` literal of `create_vegetable_report_data`
(line 97) and `create_vendor_report_data` (line 163) — both functions define
this identical list, with a leading space in the last entry. -/
def desired_hotel_order : List String := ["NOVOTEL", "GRANDBAY", "RADISSONBLU", " BHEEMILI"]

/-- The `desired_hotel_order` literal of
`create_individual_hotel_reports_pdf` (line 243), which differs in casing
and spelling from the pivot builders' list. -/
def desired_hotel_order_hotelwise : List String := ["Novotel", "Grandbay", "Radisson", "Bheemili"]

/-- The hotel ordering policy: preferred entries that are present, in
listed order, then the remaining present hotels sorted ascending. -/
def orderHotels (preferred available : List String) : List String :=
  preferred.filter (fun h => h ∈ available) ++
    List.insertionSort (· ≤ ·) (available.filter (fun h => ¬ h ∈ preferred))

/-- The hotel ordering used by both pivot builders. -/
def orderedHotels (available : List String) : List String :=
  orderHotels desired_hotel_order available

/-- The deduplication key of `df[['PIVOT_VEGETABLE_NAME', 'UNITS',
'TELUGU NAME']].drop_duplicates()`. -/
def key3 (r : Record) : String × String × String := (r.vegetable, r.unit, r.teluguName)

/-- `veg_unit_combinations`: first-occurrence-unique
(vegetable, unit, teluguName) triples of a scope. -/
def vegUnitCombos (df : List Record) : List (String × String × String) :=
  uniqueFirst (df.map key3)

/-- `df[df['PIVOT_VEGETABLE_NAME'] == veg_name]['UNITS'].nunique()`:
the number of distinct units a vegetable appears under in a scope. -/
def vegUnitsCount (df : List Record) (v : String) : Nat :=
  (uniqueFirst ((df.filter (fun r => r.vegetable = v)).map (fun r => r.unit))).length

/-- Display-name rule: unit-suffixed iff the vegetable has more than one
unit in the scope. -/
def displayNameFor (df : List Record) (v u : String) : String :=
  if 1 < vegUnitsCount df v then v ++ " (" ++ u ++ ")" else v

/-- Sum of quantities for a (vegetable, unit) key restricted to one hotel
(`hotel_data['QUANTITY'].sum()`; the empty selection sums to 0 as in the
source's `if not hotel_data.empty else 0`). -/
def hotelSum (df : List Record) (v u h : String) : Int :=
  (((df.filter (fun r => r.vegetable = v ∧ r.unit = u)).filter
      (fun r => r.hotel = h)).map (fun r => r.quantity)).sum

/-- A formatted per-hotel cell:
`f"{qty} {units}" if qty > 0 else f"0 {units}"`. -/
def cellFor (df : List Record) (v u hh : String) : String :=
  let q := hotelSum df v u hh
  if 0 < q then fmtQty q u else fmtQty 0 u

/-- One `report_row`: display name, Telugu passthrough, one cell per hotel
column, and the running `total_qty` accumulated over the hotel loop. -/
def buildRow (df : List Record) (hotels : List String) (c : String × String × String) :
    PivotRow :=
  { displayName := displayNameFor df c.1 c.2.1
    teluguName := c.2.2
    cells := hotels.map (fun hh => cellFor df c.1 c.2.1 hh)
    total := fmtQty (hotels.foldl (fun acc hh => acc + hotelSum df c.1 c.2.1 hh) 0) c.2.1 }

/-- Row ordering relation of `sort_values('PIVOT_VEGETABLE_NAME')`:
compare rows by display name. -/
def rowLe (a b : PivotRow) : Prop := a.displayName ≤ b.displayName

instance : DecidableRel rowLe := fun a b =>
  decidable_of_iff (a.displayName.toList ≤ b.displayName.toList)
    String.le_iff_toList_le.symm

instance : IsTotal PivotRow rowLe := ⟨fun a b => le_total a.displayName b.displayName⟩

instance : IsTrans PivotRow rowLe := ⟨fun _ _ _ h h' => le_trans h h'⟩

/-- `create_vegetable_report_data`: the whole-date vegetable-by-hotel
pivot, rows sorted by display name. -/
def create_vegetable_report_data (df : List Record) : PivotTable :=
  if df = [] then ⟨[], []⟩ else
  let hotels := orderedHotels (uniqueFirst (df.map (fun r => r.hotel)))
  ⟨hotels, List.insertionSort rowLe ((vegUnitCombos df).map (buildRow df hotels))⟩

/-- `create_vendor_report_data`: vendor name → pivot table, vendors sorted
alphabetically, empty vendor names skipped.  Note the hotel column list is
computed once from the whole scope, before the vendor loop. -/
def create_vendor_report_data (df : List Record) : List (String × PivotTable) :=
  if df = [] then [] else
  let hotels := orderedHotels (uniqueFirst (df.map (fun r => r.hotel)))
  let vendors := List.insertionSort (· ≤ ·) (uniqueFirst (df.map (fun r => r.vendor)))
  vendors.filterMap (fun vd =>
    if vd = "" then none
    else
      let vdata := df.filter (fun r => r.vendor = vd)
      some (vd, ⟨hotels,
        List.insertionSort rowLe ((vegUnitCombos vdata).map (buildRow vdata hotels))⟩))

/-- The `telugu_name if telugu_name and str(telugu_name) != 'nan' else ''`
cleanup of the individual-hotel report. -/
def teluguClean (t : String) : String := if t = "" ∨ t = "nan" then "" else t

/-- Ordering of the `hotel_report_data.sort(key=lambda x: x[0])` call. -/
def tripleLe (a b : String × String × String) : Prop := a.1 ≤ b.1

instance : DecidableRel tripleLe := fun a b =>
  decidable_of_iff (a.1.toList ≤ b.1.toList) String.le_iff_toList_le.symm

instance : IsTotal (String × String × String) tripleLe := ⟨fun a b => le_total a.1 b.1⟩

instance : IsTrans (String × String × String) tripleLe := ⟨fun _ _ _ h h' => le_trans h h'⟩

/-- One hotel's item list in the individual-hotel report: per
(vegetable, unit, telugu) combination of the hotel's rows, the summed
quantity, kept only when positive, display name disambiguated within the
hotel scope, sorted by display name. -/
def hotelItems (hdata : List Record) : List (String × String × String) :=
  List.insertionSort tripleLe ((vegUnitCombos hdata).filterMap (fun c =>
    let tq := ((hdata.filter (fun r => r.vegetable = c.1 ∧ r.unit = c.2.1)).map
      (fun r => r.quantity)).sum
    if 0 < tq then
      some (displayNameFor hdata c.1 c.2.1, teluguClean c.2.2, fmtQty tq c.2.1)
    else none))

/-- One hotel's section: the `hotel_data.empty` branch sets the no-data
marker, otherwise the item table is built. -/
def hotelSection (df : List Record) (h : String) : HotelSection :=
  let hdata := df.filter (fun r => r.hotel = h)
  if hdata = [] then ⟨h, true, []⟩ else ⟨h, false, hotelItems hdata⟩

/-- `create_individual_hotel_reports_pdf`, stripped of rendering: the
sequence of hotel sections, one per hotel of the (hotel-report) ordering
applied to the hotels present in the scope. -/
def create_individual_hotel_reports (df : List Record) : List HotelSection :=
  if df = [] then [] else
  (orderHotels desired_hotel_order_hotelwise
      (uniqueFirst (df.map (fun r => r.hotel)))).map (hotelSection df)

/-- Split a character list at every '/' (the field separation of the fixed
`%d/%m/%Y` pattern). -/
def splitSlash : List Char → List (List Char)
  | [] => [[]]
  | c :: rest =>
    if c = '/' then [] :: splitSlash rest
    else
      match splitSlash rest with
      | [] => [[c]]
      | g :: gs => (c :: g) :: gs

/-- A non-empty all-digit character run read as a number. -/
def digitsToNat (cs : List Char) : Option Nat :=
  if cs ≠ [] ∧ cs.all (fun c => c.isDigit) then
    some (cs.foldl (fun acc c => acc * 10 + (c.toNat - 48)) 0)
  else none

/-- Model of `pd.to_datetime(_, format='%d/%m/%Y', errors='coerce')` on one
cell: split on `/`, three all-digit components, day and month range-checked;
failure is `none` (pandas `NaT`). -/
def parseDMY (s : String) : Option (Nat × Nat × Nat) :=
  match splitSlash s.data with
  | [d, m, y] =>
    match digitsToNat d, digitsToNat m, digitsToNat y with
    | some dd, some mm, some yy =>
      if 1 ≤ dd ∧ dd ≤ 31 ∧ 1 ≤ mm ∧ mm ≤ 12 then some (dd, mm, yy) else none
    | _, _, _ => none
  | _ => none

/-- Model of `pd.to_numeric(_, errors='coerce')` on one cell: an optional
minus sign followed by digits; failure is `none` (pandas `NaN`). -/
def parseIntStr (s : String) : Option Int :=
  match s.data with
  | '-' :: rest => (digitsToNat rest).map (fun n => -(n : Int))
  | cs => (digitsToNat cs).map (fun n => (n : Int))

/-- The `.fillna(0)` after the numeric coercion. -/
def coerceQty (s : String) : Int := (parseIntStr s).getD 0

/-- A raw row after date filtering and quantity coercion. -/
def toRecord (r : RawRecord) : Record :=
  ⟨r.hotel, r.vendor, r.vegetable, r.teluguName, r.unit, coerceQty r.quantity⟩

/-- `process_data_for_date`: empty source returns empty; rows are kept when
their parsed date equals the target; if none match, an empty result is
returned together with the `st.warning`; otherwise quantities are coerced
and non-positive rows dropped. -/
def process_data_for_date (df : List RawRecord) (target : Nat × Nat × Nat) :
    ProcessResult :=
  if df = [] then ⟨[], false⟩ else
  let dateFiltered := df.filter (fun r => parseDMY r.date = some target)
  if dateFiltered = [] then ⟨[], true⟩ else
  ⟨(dateFiltered.map toRecord).filter (fun r => 0 < r.quantity), false⟩

/-- The row component of `process_data_for_date`, as a single pipeline. -/
def rowsOf (df : List RawRecord) (target : Nat × Nat × Nat) : List Record :=
  ((df.filter (fun r => parseDMY r.date = some target)).map toRecord).filter
    (fun r => 0 < r.quantity)

/-! ### Concrete record sets used by the witnesses and counterexamples -/

/-- Two records with the same (vegetable, unit) but different Telugu
names. -/
def dfC1 : List Record :=
  [⟨"A", "V", "Tomato", "T1", "kg", 5⟩, ⟨"A", "V", "Tomato", "T2", "kg", 3⟩]

/-- Vendor "V1" supplies only hotel "A"; vendor "V2" only hotel "B". -/
def dfC2 : List Record :=
  [⟨"A", "V1", "Tomato", "T", "kg", 5⟩, ⟨"B", "V2", "Potato", "T", "kg", 3⟩]

/-- A one-vendor record set for the C2 witness. -/
def dfC2w : List Record := [⟨"A", "W1", "Tomato", "T", "kg", 5⟩]

/-- The first vendor table of `dfC2w`'s vendor report. -/
def tC2w : PivotTable :=
  match create_vendor_report_data dfC2w with
  | (_, t) :: _ => t
  | [] => ⟨[], []⟩

/-- Records at the hotels "NOVOTEL" and "GRANDBAY" only. -/
def dfC3 : List Record :=
  [⟨"NOVOTEL", "V", "Tomato", "T", "kg", 5⟩, ⟨"GRANDBAY", "V", "Potato", "T", "kg", 3⟩]

/-- Vegetable "X" under two units in the full scope ("kg" for vendor "V1",
"box" for vendor "V2"), and under the single unit "kg" with two distinct
Telugu names inside vendor "V1"'s scope. -/
def dfC4 : List Record :=
  [⟨"A", "V1", "X", "T1", "kg", 5⟩, ⟨"A", "V2", "X", "T1", "box", 3⟩,
    ⟨"A", "V1", "X", "T2", "kg", 2⟩]

/-- Record set for the C5 witness. -/
def dfC5 : List Record :=
  [⟨"A", "V", "Carrot", "T", "kg", 4⟩, ⟨"B", "V", "Carrot", "T", "kg", 6⟩]

/-- A record set whose only hotel is "Grandbay". -/
def dfC6 : List Record := [⟨"Grandbay", "V", "Tomato", "T", "kg", 5⟩]

/-- Two records equal up to their Telugu names, in both orders. -/
def dfC7a : List Record :=
  [⟨"A", "V", "Tomato", "T1", "kg", 5⟩, ⟨"A", "V", "Tomato", "T2", "kg", 3⟩]

/-- The same two records as `dfC7a`, swapped. -/
def dfC7b : List Record :=
  [⟨"A", "V", "Tomato", "T2", "kg", 3⟩, ⟨"A", "V", "Tomato", "T1", "kg", 5⟩]

/-- A record set with distinct display names for the C7 witness. -/
def dfC7w1 : List Record :=
  [⟨"A", "V", "Onion", "T", "kg", 5⟩, ⟨"A", "V", "Beet", "T", "kg", 3⟩]

/-- The same two records as `dfC7w1`, swapped. -/
def dfC7w2 : List Record :=
  [⟨"A", "V", "Beet", "T", "kg", 3⟩, ⟨"A", "V", "Onion", "T", "kg", 5⟩]

/-- A raw row whose date does not parse under the `%d/%m/%Y` pattern. -/
def rBadDate : RawRecord := ⟨"garbage", "A", "V", "Tomato", "T", "kg", "5"⟩

/-- A non-empty raw table whose single row matches the target date but has
quantity "0". -/
def dfC9 : List RawRecord := [⟨"01/01/2024", "A", "V", "Tomato", "T", "kg", "0"⟩]

/-- A record set containing the hotel "BHEEMILI" (no leading space). -/
def dfC10 : List Record := [⟨"BHEEMILI", "V", "Tomato", "T", "kg", 5⟩]

/-! ### Helper lemmas about `uniqueFirst` -/

theorem mem_uniqueFirstAux {α : Type} [DecidableEq α] (a : α) :
    ∀ (l seen : List α), a ∈ uniqueFirstAux seen l ↔ a ∈ l ∧ a ∉ seen
  | [], seen => by simp [uniqueFirstAux]
  | b :: l, seen => by
    by_cases hb : b ∈ seen
    · rw [uniqueFirstAux, if_pos hb, mem_uniqueFirstAux a l seen]
      constructor
      · rintro ⟨h1, h2⟩
        exact ⟨List.mem_cons_of_mem _ h1, h2⟩
      · rintro ⟨h1, h2⟩
        rcases List.mem_cons.mp h1 with rfl | h1
        · exact absurd hb h2
        · exact ⟨h1, h2⟩
    · rw [uniqueFirstAux, if_neg hb, List.mem_cons, mem_uniqueFirstAux a l (b :: seen)]
      constructor
      · rintro (rfl | ⟨h1, h2⟩)
        · exact ⟨List.mem_cons_self _ _, hb⟩
        · exact ⟨List.mem_cons_of_mem _ h1, fun hs => h2 (List.mem_cons_of_mem _ hs)⟩
      · rintro ⟨h1, h2⟩
        by_cases hab : a = b
        · exact Or.inl hab
        · rcases List.mem_cons.mp h1 with rfl | h1
          · exact absurd rfl hab
          · exact Or.inr ⟨h1, fun hs => (List.mem_cons.mp hs).elim hab h2⟩

theorem nodup_uniqueFirstAux {α : Type} [DecidableEq α] :
    ∀ (l seen : List α), (uniqueFirstAux seen l).Nodup
  | [], seen => by simp [uniqueFirstAux]
  | b :: l, seen => by
    by_cases hb : b ∈ seen
    · rw [uniqueFirstAux, if_pos hb]
      exact nodup_uniqueFirstAux l seen
    · rw [uniqueFirstAux, if_neg hb, List.nodup_cons]
      refine ⟨fun hmem => ?_, nodup_uniqueFirstAux l (b :: seen)⟩
      exact ((mem_uniqueFirstAux b l (b :: seen)).mp hmem).2 (List.mem_cons_self _ _)

theorem mem_uniqueFirst {α : Type} [DecidableEq α] (a : α) (l : List α) :
    a ∈ uniqueFirst l ↔ a ∈ l := by
  rw [uniqueFirst, mem_uniqueFirstAux]
  simp

theorem nodup_uniqueFirst {α : Type} [DecidableEq α] (l : List α) :
    (uniqueFirst l).Nodup := nodup_uniqueFirstAux l []

theorem uniqueFirst_perm {α : Type} [DecidableEq α] {l₁ l₂ : List α} (h : l₁.Perm l₂) :
    (uniqueFirst l₁).Perm (uniqueFirst l₂) := by
  rw [List.perm_ext_iff_of_nodup (nodup_uniqueFirst l₁) (nodup_uniqueFirst l₂)]
  intro a
  rw [mem_uniqueFirst, mem_uniqueFirst]
  exact h.mem_iff

theorem uniqueFirstAux_seen_congr {α : Type} [DecidableEq α] :
    ∀ (l seen₁ seen₂ : List α), (∀ x ∈ l, x ∈ seen₁ ↔ x ∈ seen₂) →
      uniqueFirstAux seen₁ l = uniqueFirstAux seen₂ l
  | [], _, _, _ => rfl
  | b :: l, seen₁, seen₂, h => by
    by_cases hb : b ∈ seen₁
    · rw [uniqueFirstAux, if_pos hb, uniqueFirstAux,
        if_pos ((h b (List.mem_cons_self _ _)).mp hb),
        uniqueFirstAux_seen_congr l seen₁ seen₂
          (fun x hx => h x (List.mem_cons_of_mem _ hx))]
    · rw [uniqueFirstAux, if_neg hb, uniqueFirstAux,
        if_neg (fun hc => hb ((h b (List.mem_cons_self _ _)).mpr hc)),
        uniqueFirstAux_seen_congr l (b :: seen₁) (b :: seen₂) (fun x hx => by
          simp only [List.mem_cons]
          exact or_congr Iff.rfl (h x (List.mem_cons_of_mem _ hx)))]

theorem filter_uniqueFirstAux {α : Type} [DecidableEq α] (p : α → Bool) :
    ∀ (l seen : List α),
      (uniqueFirstAux seen l).filter p = uniqueFirstAux seen (l.filter p)
  | [], _ => rfl
  | a :: l, seen => by
    by_cases ha : a ∈ seen
    · rw [uniqueFirstAux, if_pos ha, filter_uniqueFirstAux p l seen]
      by_cases hpa : p a
      · rw [List.filter_cons_of_pos hpa, uniqueFirstAux, if_pos ha]
      · rw [List.filter_cons_of_neg hpa]
    · rw [uniqueFirstAux, if_neg ha]
      by_cases hpa : p a
      · rw [List.filter_cons_of_pos hpa, List.filter_cons_of_pos hpa,
          filter_uniqueFirstAux p l (a :: seen), uniqueFirstAux, if_neg ha]
      · rw [List.filter_cons_of_neg hpa, List.filter_cons_of_neg hpa,
          filter_uniqueFirstAux p l (a :: seen),
          uniqueFirstAux_seen_congr (l.filter p) (a :: seen) seen (fun x hx => by
            have hpx : p x := (List.mem_filter.mp hx).2
            have hxa : x ≠ a := fun he => hpa (he ▸ hpx)
            simp [List.mem_cons, hxa])]

theorem filter_uniqueFirst {α : Type} [DecidableEq α] (p : α → Bool) (l : List α) :
    (uniqueFirst l).filter p = uniqueFirst (l.filter p) :=
  filter_uniqueFirstAux p l []

theorem uniqueFirstAux_map {α β : Type} [DecidableEq α] [DecidableEq β] (f : α → β)
    (hf : Function.Injective f) :
    ∀ (l seen : List α),
      uniqueFirstAux (seen.map f) (l.map f) = (uniqueFirstAux seen l).map f
  | [], _ => rfl
  | a :: l, seen => by
    by_cases ha : a ∈ seen
    · rw [List.map_cons, uniqueFirstAux, if_pos ((List.mem_map_of_injective hf).mpr ha),
        uniqueFirstAux, if_pos ha, uniqueFirstAux_map f hf l seen]
    · rw [List.map_cons, uniqueFirstAux,
        if_neg (fun hc => ha ((List.mem_map_of_injective hf).mp hc)),
        uniqueFirstAux, if_neg ha, List.map_cons, ← uniqueFirstAux_map f hf l (a :: seen),
        List.map_cons]

theorem uniqueFirst_map {α β : Type} [DecidableEq α] [DecidableEq β] (f : α → β)
    (hf : Function.Injective f) (l : List α) :
    uniqueFirst (l.map f) = (uniqueFirst l).map f :=
  uniqueFirstAux_map f hf l []

/-! ### Helper lemmas about sorting and the hotel ordering -/

theorem mem_available_of_mem_orderHotels {pref av : List String} {h : String}
    (hm : h ∈ orderHotels pref av) : h ∈ av := by
  unfold orderHotels at hm
  rcases List.mem_append.mp hm with h1 | h2
  · simpa using (List.mem_filter.mp h1).2
  · rw [List.mem_insertionSort] at h2
    exact (List.mem_filter.mp h2).1

theorem orderHotels_congr {pref av₁ av₂ : List String} (hav : av₁.Perm av₂) :
    orderHotels pref av₁ = orderHotels pref av₂ := by
  unfold orderHotels
  congr 1
  · exact List.filter_congr (fun x _ => by
      simp only [decide_eq_decide]
      exact hav.mem_iff)
  · have hp : (List.insertionSort (· ≤ ·) (av₁.filter (fun h => ¬ h ∈ pref))).Perm
        (List.insertionSort (· ≤ ·) (av₂.filter (fun h => ¬ h ∈ pref))) :=
      ((List.perm_insertionSort _ _).trans (hav.filter _)).trans
        (List.perm_insertionSort _ _).symm
    exact List.eq_of_perm_of_sorted hp (List.sorted_insertionSort _ _)
      (List.sorted_insertionSort _ _)

/-! ### Helper lemmas about rows and sums -/

theorem foldl_add_eq_sum (g : String → Int) (l : List String) (acc : Int) :
    l.foldl (fun a hh => a + g hh) acc = acc + (l.map g).sum := by
  induction l generalizing acc with
  | nil => simp
  | cons x xs ih => simp [ih, add_assoc]

theorem suffixName_inj {v u₁ u₂ : String}
    (h : v ++ " (" ++ u₁ ++ ")" = v ++ " (" ++ u₂ ++ ")") : u₁ = u₂ := by
  have hd := congrArg String.data h
  simp only [String.data_append] at hd
  have h₁ : (v.data ++ " (".data) ++ u₁.data = (v.data ++ " (".data) ++ u₂.data := by
    have := (List.append_inj' hd rfl).1
    simpa [List.append_assoc] using this
  exact String.ext (List.append_inj_right h₁ rfl)

theorem one_lt_length_of_mem {α : Type} {a b : α} {l : List α}
    (ha : a ∈ l) (hb : b ∈ l) (hne : a ≠ b) : 1 < l.length := by
  cases l with
  | nil => cases ha
  | cons x xs =>
    cases xs with
    | nil =>
      have hax : a = x := by simpa using ha
      have hbx : b = x := by simpa using hb
      exact absurd (hax.trans hbx.symm) hne
    | cons y ys =>
      simp only [List.length_cons]
      omega

theorem hotelSum_congr {df₁ df₂ : List Record} (h : df₁.Perm df₂) (v u hh : String) :
    hotelSum df₁ v u hh = hotelSum df₂ v u hh :=
  List.Perm.sum_eq (((h.filter _).filter _).map _)

theorem vegUnitsCount_congr {df₁ df₂ : List Record} (h : df₁.Perm df₂) (v : String) :
    vegUnitsCount df₁ v = vegUnitsCount df₂ v :=
  (uniqueFirst_perm ((h.filter _).map _)).length_eq

theorem displayNameFor_congr {df₁ df₂ : List Record} (h : df₁.Perm df₂) (v u : String) :
    displayNameFor df₁ v u = displayNameFor df₂ v u := by
  unfold displayNameFor
  rw [vegUnitsCount_congr h]

theorem buildRow_congr {df₁ df₂ : List Record} (h : df₁.Perm df₂) (hotels : List String)
    (c : String × String × String) : buildRow df₁ hotels c = buildRow df₂ hotels c := by
  unfold buildRow
  rw [foldl_add_eq_sum, foldl_add_eq_sum, displayNameFor_congr h]
  have hcell : ∀ hh, cellFor df₁ c.1 c.2.1 hh = cellFor df₂ c.1 c.2.1 hh := fun hh => by
    unfold cellFor
    rw [hotelSum_congr h]
  have hmap : hotels.map (cellFor df₁ c.1 c.2.1) = hotels.map (cellFor df₂ c.1 c.2.1) :=
    List.map_congr_left (fun hh _ => hcell hh)
  have hsum : hotels.map (hotelSum df₁ c.1 c.2.1) = hotels.map (hotelSum df₂ c.1 c.2.1) :=
    List.map_congr_left (fun hh _ => hotelSum_congr h c.1 c.2.1 hh)
  rw [hmap, hsum]

theorem mem_rows_iff (df : List Record) (hotels : List String) (row : PivotRow) :
    row ∈ List.insertionSort rowLe ((vegUnitCombos df).map (buildRow df hotels)) ↔
      ∃ c, c ∈ vegUnitCombos df ∧ buildRow df hotels c = row := by
  rw [List.mem_insertionSort, List.mem_map]

/-! ### Shape lemmas for the three report builders -/

theorem buildRow_spec (scope : List Record) (hotels : List String)
    (hpos : ∀ r ∈ scope, 0 < r.quantity) (c : String × String × String) :
    (buildRow scope hotels c).cells
        = hotels.map (fun hh => fmtQty (hotelSum scope c.1 c.2.1 hh) c.2.1) ∧
      (buildRow scope hotels c).total
        = fmtQty ((hotels.map (hotelSum scope c.1 c.2.1)).sum) c.2.1 ∧
      (buildRow scope hotels c).cells.length = hotels.length := by
  refine ⟨?_, ?_, by simp [buildRow]⟩
  · simp only [buildRow]
    refine List.map_congr_left (fun hh _ => ?_)
    unfold cellFor
    by_cases hq : 0 < hotelSum scope c.1 c.2.1 hh
    · simp [hq]
    · have hge : 0 ≤ hotelSum scope c.1 c.2.1 hh := by
        unfold hotelSum
        refine List.sum_nonneg ?_
        intro x hx
        obtain ⟨r, hr, rfl⟩ := List.mem_map.mp hx
        have hrs : r ∈ scope := (List.mem_filter.mp (List.mem_filter.mp hr).1).1
        exact le_of_lt (hpos r hrs)
      have h0 : hotelSum scope c.1 c.2.1 hh = 0 := by omega
      simp [hq, h0]
  · simp only [buildRow]
    rw [foldl_add_eq_sum]
    simp

theorem veg_table_shape {df : List Record} (hne : df ≠ []) :
    create_vegetable_report_data df
      = ⟨orderedHotels (uniqueFirst (df.map (fun r => r.hotel))),
        List.insertionSort rowLe ((vegUnitCombos df).map
          (buildRow df (orderedHotels (uniqueFirst (df.map (fun r => r.hotel))))))⟩ := by
  simp only [create_vegetable_report_data, if_neg hne]

theorem vendor_table_shape {df : List Record} {vd : String} {t : PivotTable}
    (h : (vd, t) ∈ create_vendor_report_data df) :
    df ≠ [] ∧ vd ∈ uniqueFirst (df.map (fun r => r.vendor)) ∧ vd ≠ "" ∧
      t = ⟨orderedHotels (uniqueFirst (df.map (fun r => r.hotel))),
        List.insertionSort rowLe
          ((vegUnitCombos (df.filter (fun r => r.vendor = vd))).map
            (buildRow (df.filter (fun r => r.vendor = vd))
              (orderedHotels (uniqueFirst (df.map (fun r => r.hotel))))))⟩ := by
  by_cases hne : df = []
  · subst hne
    simp [create_vendor_report_data] at h
  · refine ⟨hne, ?_⟩
    simp only [create_vendor_report_data, if_neg hne, List.mem_filterMap] at h
    obtain ⟨a, ham, ha⟩ := h
    by_cases ha0 : a = ""
    · rw [if_pos ha0] at ha
      cases ha
    · rw [if_neg ha0] at ha
      obtain ⟨h1, h2⟩ := Prod.mk.inj (Option.some.inj ha)
      subst h1
      rw [List.mem_insertionSort] at ham
      exact ⟨ham, ha0, h2.symm⟩

theorem veg_hotels_eq {df : List Record} (hne : df ≠ []) :
    (create_vegetable_report_data df).hotels
      = orderedHotels (uniqueFirst (df.map (fun r => r.hotel))) := by
  rw [veg_table_shape hne]

theorem veg_rows_eq {df : List Record} (hne : df ≠ []) :
    (create_vegetable_report_data df).rows
      = List.insertionSort rowLe ((vegUnitCombos df).map
          (buildRow df (orderedHotels (uniqueFirst (df.map (fun r => r.hotel)))))) := by
  rw [veg_table_shape hne]

theorem hotelSection_hotel (df : List Record) (h : String) :
    (hotelSection df h).hotel = h := by
  simp only [hotelSection]
  split <;> rfl

theorem orderHotels_nil (pref : List String) : orderHotels pref [] = [] := by
  simp [orderHotels]

theorem individual_hotels_map (df : List Record) :
    (create_individual_hotel_reports df).map (fun s => s.hotel)
      = orderHotels desired_hotel_order_hotelwise
          (uniqueFirst (df.map (fun r => r.hotel))) := by
  by_cases hne : df = []
  · subst hne
    simp [create_individual_hotel_reports, orderHotels_nil, uniqueFirst, uniqueFirstAux]
  · simp only [create_individual_hotel_reports, if_neg hne]
    rw [List.map_map]
    exact (List.map_congr_left (fun x _ => hotelSection_hotel df x)).trans (List.map_id _)

theorem veg_rows_sorted (df : List Record) :
    ((create_vegetable_report_data df).rows).Sorted rowLe := by
  by_cases hne : df = []
  · subst hne
    simp only [create_vegetable_report_data, if_pos rfl]
    exact List.sorted_nil
  · rw [veg_rows_eq hne]
    exact List.sorted_insertionSort rowLe _

theorem eq_of_perm_sorted_nodup_keys {l₁ l₂ : List PivotRow} (hp : l₁.Perm l₂)
    (hs₁ : l₁.Sorted rowLe) (hs₂ : l₂.Sorted rowLe)
    (hnd : (l₁.map (fun r => r.displayName)).Nodup) : l₁ = l₂ := by
  have hnd₂ : (l₂.map (fun r => r.displayName)).Nodup :=
    ((hp.map (fun r => r.displayName)).nodup_iff).mp hnd
  have hstrict : ∀ {l : List PivotRow}, l.Sorted rowLe →
      (l.map (fun r => r.displayName)).Nodup →
      l.Pairwise (fun a b => a.displayName < b.displayName) := by
    intro l hs hn
    have hpnd : l.Pairwise (fun a b => a.displayName ≠ b.displayName) :=
      List.pairwise_map.mp hn
    exact (hs.and hpnd).imp (fun h => lt_of_le_of_ne h.1 h.2)
  haveI : IsAntisymm PivotRow (fun a b => a.displayName < b.displayName) :=
    ⟨fun _ _ h1 h2 => absurd h2 (lt_asymm h1)⟩
  exact List.eq_of_perm_of_sorted hp (hstrict hs₁ hnd) (hstrict hs₂ hnd₂)

theorem process_rows_eq (df : List RawRecord) (d : Nat × Nat × Nat) :
    (process_data_for_date df d).rows = rowsOf df d := by
  by_cases h0 : df = []
  · subst h0
    simp [process_data_for_date, rowsOf]
  · by_cases h1 : df.filter (fun r => parseDMY r.date = some d) = []
    · simp [process_data_for_date, rowsOf, if_neg h0, h1]
    · simp only [process_data_for_date, rowsOf, if_neg h0, if_neg h1]

/-! ### C9 -/

/-- C9 counterexample: the source table is non-empty and no rows remain
after the full filtering (the date matches but the quantity filter drops
the row), yet the normalizer emits NO warning — refuting the claim that
the warning fires exactly in this situation. -/
theorem c9_counterexample :
    dfC9 ≠ [] ∧ (process_data_for_date dfC9 (1, 1, 2024)).rows = [] ∧
      (process_data_for_date dfC9 (1, 1, 2024)).warned = false := by
  refine ⟨by decide, by decide, by decide⟩

/-- C9 amended: the normalizer warns exactly when the source table is
non-empty but no row's parsed date equals the target date; rows that match
the date but are all removed by the positive-quantity filter yield an
empty result with no warning, as does an empty source. -/
theorem c9_amended (df : List RawRecord) (d : Nat × Nat × Nat) :
    (process_data_for_date df d).warned = true ↔
      (df ≠ [] ∧ df.filter (fun r => parseDMY r.date = some d) = []) := by
  by_cases h0 : df = []
  · subst h0
    simp [process_data_for_date]
  · by_cases h1 : df.filter (fun r => parseDMY r.date = some d) = []
    · simp [process_data_for_date, if_neg h0, h0, h1]
    · simp [process_data_for_date, if_neg h0, if_neg h1, h0, h1]

/-! ### C10 -/

/-- C10: both pivot builders' preferred hotel list is literally
`['NOVOTEL', 'GRANDBAY', 'RADISSONBLU', ' BHEEMILI']` (leading space in the
last entry), and for every record set containing a hotel named "BHEEMILI"
(no leading space) that hotel lands in the alphabetically sorted remainder
of the column order, never in the preferred part. -/
theorem c10_bheemili (df : List Record)
    (hmem : "BHEEMILI" ∈ df.map (fun r => r.hotel)) :
    desired_hotel_order = ["NOVOTEL", "GRANDBAY", "RADISSONBLU", " BHEEMILI"] ∧
    (create_vegetable_report_data df).hotels
      = desired_hotel_order.filter
          (fun x => x ∈ uniqueFirst (df.map (fun r => r.hotel)))
        ++ List.insertionSort (· ≤ ·)
          ((uniqueFirst (df.map (fun r => r.hotel))).filter
            (fun x => ¬ x ∈ desired_hotel_order)) ∧
    "BHEEMILI" ∉ desired_hotel_order.filter
        (fun x => x ∈ uniqueFirst (df.map (fun r => r.hotel))) ∧
    "BHEEMILI" ∈ List.insertionSort (· ≤ ·)
        ((uniqueFirst (df.map (fun r => r.hotel))).filter
          (fun x => ¬ x ∈ desired_hotel_order)) := by
  obtain ⟨r, hr, _⟩ := List.mem_map.mp hmem
  have hne : df ≠ [] := List.ne_nil_of_mem hr
  refine ⟨rfl, ?_, ?_, ?_⟩
  · simp only [create_vegetable_report_data, if_neg hne]
    rfl
  · intro hcon
    exact absurd (List.mem_of_mem_filter hcon) (by decide)
  · rw [List.mem_insertionSort]
    exact List.mem_filter.mpr ⟨(mem_uniqueFirst _ _).mpr hmem, by decide⟩

/-! ### C8 -/

/-- C8: a row whose date fails to parse is dropped silently (removing it
from the batch does not change the normalized rows), a non-numeric
quantity coerces to 0, and a row whose coerced quantity is ≤ 0 (such as
"0" or "-3") is dropped, contributing nothing to the normalized record
set — hence to no total of any report, all of which are functions of that
set. -/
theorem c8_normalizer_drops (l1 l2 : List RawRecord) (r : RawRecord)
    (d : Nat × Nat × Nat)
    (h : parseDMY r.date = none ∨ coerceQty r.quantity ≤ 0) :
    (process_data_for_date (l1 ++ r :: l2) d).rows
        = (process_data_for_date (l1 ++ l2) d).rows ∧
      (parseIntStr r.quantity = none → coerceQty r.quantity = 0) := by
  constructor
  · rw [process_rows_eq, process_rows_eq]
    unfold rowsOf
    by_cases hdm : parseDMY r.date = some d
    · have hq : coerceQty r.quantity ≤ 0 := by
        rcases h with hd | hq
        · rw [hd] at hdm
          cases hdm
        · exact hq
      rw [List.filter_append, List.filter_cons_of_pos (by simp [hdm]),
        List.map_append, List.map_cons, List.filter_append,
        List.filter_cons_of_neg (by simpa [toRecord] using not_lt.mpr hq),
        ← List.filter_append, ← List.map_append, ← List.filter_append]
    · rw [List.filter_append, List.filter_cons_of_neg (by simp [hdm]),
        ← List.filter_append]
  · intro h'
    unfold coerceQty
    rw [h']
    rfl

/-- C8 witness: the theorem applied at a concrete malformed row. -/
theorem c8_normalizer_drops_witness :
    (parseDMY rBadDate.date = none ∨ coerceQty rBadDate.quantity ≤ 0) ∧
      (process_data_for_date [rBadDate] (1, 1, 2024)).rows
        = (process_data_for_date ([] : List RawRecord) (1, 1, 2024)).rows :=
  ⟨Or.inl (by decide),
    (c8_normalizer_drops [] [] rBadDate (1, 1, 2024) (Or.inl (by decide))).1⟩

/-! ### C1 -/

/-- C1 counterexample: a record set with ONE distinct (vegetable, unit)
combination for which the vegetable pivot emits TWO rows, because the
Telugu name participates in the deduplication key — each of the two rows
carrying the full "8 kg" sum.  This refutes "exactly one PivotRow per
distinct (vegetable, unit)" and "no effect on the number of rows". -/
theorem c1_counterexample :
    (uniqueFirst (dfC1.map (fun r => (r.vegetable, r.unit)))).length = 1 ∧
      (create_vegetable_report_data dfC1).rows.length = 2 ∧
      (create_vegetable_report_data dfC1).rows.map (fun row => row.total)
        = ["8 kg", "8 kg"] := by
  refine ⟨by decide, by decide, by decide⟩

/-- C1 amended: the vegetable pivot emits exactly one PivotRow per distinct
(vegetable, unit, secondaryName) TRIPLE present in the record set; the
secondary name has no effect on a row's display name, cells or total, but
it does participate in the grouping key, so it can affect the number of
rows emitted. -/
theorem c1_amended (df : List Record) (hne : df ≠ []) :
    (create_vegetable_report_data df).rows.length
        = (uniqueFirst (df.map key3)).length ∧
      ∀ hotels v u t t',
        (buildRow df hotels (v, u, t)).displayName
            = (buildRow df hotels (v, u, t')).displayName ∧
          (buildRow df hotels (v, u, t)).cells = (buildRow df hotels (v, u, t')).cells ∧
          (buildRow df hotels (v, u, t)).total = (buildRow df hotels (v, u, t')).total := by
  constructor
  · simp only [create_vegetable_report_data, if_neg hne]
    rw [(List.perm_insertionSort _ _).length_eq, List.length_map]
    rfl
  · intro hotels v u t t'
    exact ⟨rfl, rfl, rfl⟩

/-- C1 witness: the amended theorem applied at the concrete record set. -/
theorem c1_amended_witness :
    dfC1 ≠ [] ∧
      (create_vegetable_report_data dfC1).rows.length
        = (uniqueFirst (dfC1.map key3)).length :=
  ⟨by decide, (c1_amended dfC1 (by decide)).1⟩

/-! ### C2 -/

/-- C2 counterexample: vendor "V1" supplies only hotel "A", yet its table's
hotel columns are ["A", "B"] — the whole-date grid — while the Hotel
Ordering Policy applied to V1's scoped rows alone yields ["A"]; the vendor
grid is NOT narrower. -/
theorem c2_counterexample :
    ((create_vendor_report_data dfC2).map (fun p => (p.1, p.2.hotels)))
        = [("V1", ["A", "B"]), ("V2", ["A", "B"])] ∧
      orderedHotels (uniqueFirst
          ((dfC2.filter (fun r => r.vendor = "V1")).map (fun r => r.hotel)))
        = ["A"] := by
  refine ⟨by decide, by decide⟩

/-- C2 amended: every vendor table's hotel column list is the Hotel
Ordering Policy applied to the WHOLE date scope, computed once before the
vendor loop; a vendor supplying a subset of hotels still receives the
full-width grid (the unit-key disambiguation, by contrast, is recomputed
per vendor). -/
theorem c2_amended (df : List Record) (vd : String) (t : PivotTable)
    (h : (vd, t) ∈ create_vendor_report_data df) :
    t.hotels = orderedHotels (uniqueFirst (df.map (fun r => r.hotel))) := by
  rw [(vendor_table_shape h).2.2.2]

/-- C2 witness: the amended theorem applied at a concrete vendor table. -/
theorem c2_amended_witness :
    ("W1", tC2w) ∈ create_vendor_report_data dfC2w ∧
      tC2w.hotels = orderedHotels (uniqueFirst (dfC2w.map (fun r => r.hotel))) :=
  ⟨by decide, c2_amended dfC2w "W1" tC2w (by decide)⟩

/-! ### C3 -/

/-- C3 counterexample: on the same record set the vegetable pivot orders
the hotels ["NOVOTEL", "GRANDBAY"] (both match its preferred list), while
the individual-hotel report — whose preferred list is spelled and cased
differently — orders its sections ["GRANDBAY", "NOVOTEL"]: the three
report types do not use one policy with the same preferred entries. -/
theorem c3_counterexample :
    (create_vegetable_report_data dfC3).hotels = ["NOVOTEL", "GRANDBAY"] ∧
      (create_individual_hotel_reports dfC3).map (fun s => s.hotel)
        = ["GRANDBAY", "NOVOTEL"] ∧
      desired_hotel_order ≠ desired_hotel_order_hotelwise := by
  refine ⟨by decide, by decide, by decide⟩

/-- C3 amended: the vegetable pivot and every vendor pivot do share the
same policy instance — the same preferred entries applied to the whole
record set — so their hotel orders are identical; the individual-hotel
report applies the same algorithm but with the DIFFERENT preferred list
['Novotel', 'Grandbay', 'Radisson', 'Bheemili'], so its hotel order can
disagree with the pivots'. -/
theorem c3_amended (df : List Record) (vd : String) (t : PivotTable)
    (h : (vd, t) ∈ create_vendor_report_data df) :
    t.hotels = (create_vegetable_report_data df).hotels ∧
      (create_individual_hotel_reports df).map (fun s => s.hotel)
        = orderHotels desired_hotel_order_hotelwise
            (uniqueFirst (df.map (fun r => r.hotel))) := by
  obtain ⟨hne, -, -, ht⟩ := vendor_table_shape h
  constructor
  · rw [ht, veg_table_shape hne]
  · exact individual_hotels_map df

/-- C3 witness: the amended theorem applied at a concrete vendor table. -/
theorem c3_amended_witness :
    ("W1", tC2w) ∈ create_vendor_report_data dfC2w ∧
      tC2w.hotels = (create_vegetable_report_data dfC2w).hotels :=
  ⟨by decide, (c3_amended dfC2w "W1" tC2w (by decide)).1⟩

/-! ### C6 -/

/-- C6 counterexample: "Novotel" is in the individual report's preferred
hotel list and has zero qualifying rows in `dfC6`, and it is omitted from
the report entirely rather than appearing as an empty section with a
no-data marker. -/
theorem c6_counterexample :
    "Novotel" ∈ desired_hotel_order_hotelwise ∧
      (create_individual_hotel_reports dfC6).map (fun s => s.hotel) = ["Grandbay"] ∧
      "Novotel" ∉ (create_individual_hotel_reports dfC6).map (fun s => s.hotel) := by
  refine ⟨by decide, by decide, by decide⟩

/-- C6 amended: the individual-hotel report enumerates exactly the hotels
PRESENT in the filtered record set (in its policy order); a hotel with
zero qualifying rows is omitted entirely, so every emitted section has
data — the report's no-data branch is unreachable.  In the vendor pivot a
vendor with no rows is likewise excluded. -/
theorem c6_amended (df : List Record) :
    (create_individual_hotel_reports df).map (fun s => s.hotel)
        = orderHotels desired_hotel_order_hotelwise
            (uniqueFirst (df.map (fun r => r.hotel))) ∧
      (∀ s ∈ create_individual_hotel_reports df, s.noData = false) ∧
      (∀ vd, (∀ r ∈ df, r.vendor ≠ vd) →
        ∀ t, (vd, t) ∉ create_vendor_report_data df) := by
  refine ⟨individual_hotels_map df, ?_, ?_⟩
  · intro s hs
    by_cases hne : df = []
    · subst hne
      simp [create_individual_hotel_reports] at hs
    · simp only [create_individual_hotel_reports, if_neg hne, List.mem_map] at hs
      obtain ⟨hh, hhm, rfl⟩ := hs
      have hav : hh ∈ uniqueFirst (df.map (fun r => r.hotel)) :=
        mem_available_of_mem_orderHotels hhm
      rw [mem_uniqueFirst] at hav
      obtain ⟨r, hr, hrh⟩ := List.mem_map.mp hav
      have hfe : df.filter (fun r' => r'.hotel = hh) ≠ [] :=
        List.ne_nil_of_mem (List.mem_filter.mpr ⟨hr, by simp [hrh]⟩)
      simp only [hotelSection, if_neg hfe]
  · intro vd hvd t ht
    obtain ⟨-, hvm, -, -⟩ := vendor_table_shape ht
    rw [mem_uniqueFirst] at hvm
    obtain ⟨r, hr, hrv⟩ := List.mem_map.mp hvm
    exact hvd r hr hrv

/-- C6 witness: the vendor-exclusion part of the amended theorem applied
at a concrete vendor absent from the record set. -/
theorem c6_amended_witness :
    (∀ r ∈ dfC6, r.vendor ≠ "Z") ∧
      ("Z", (⟨[], []⟩ : PivotTable)) ∉ create_vendor_report_data dfC6 :=
  ⟨by decide, (c6_amended dfC6).2.2 "Z" (by decide) ⟨[], []⟩⟩

/-! ### C5 -/

/-- C5: in every pivot table built from a positive-quantity record set
(every normalized record set is one), each row's cell list has exactly one
cell per hotel column, each cell is the formatted per-hotel sum for the
row's (vegetable, unit) key — zero sums still emitted as "0 {unit}" — and
the row's total is the formatted arithmetic sum of those per-hotel sums.
Holds for the vegetable pivot and for every vendor pivot (whose sums range
over the vendor's scope). -/
theorem c5_totals (df : List Record) (hpos : ∀ r ∈ df, 0 < r.quantity) :
    (∀ row ∈ (create_vegetable_report_data df).rows, ∃ v u,
        row.cells = (create_vegetable_report_data df).hotels.map
            (fun hh => fmtQty (hotelSum df v u hh) u) ∧
          row.total = fmtQty
            (((create_vegetable_report_data df).hotels.map (hotelSum df v u)).sum) u ∧
          row.cells.length = (create_vegetable_report_data df).hotels.length) ∧
      (∀ vd tb, (vd, tb) ∈ create_vendor_report_data df → ∀ row ∈ tb.rows, ∃ v u,
        row.cells = tb.hotels.map
            (fun hh => fmtQty (hotelSum (df.filter (fun r => r.vendor = vd)) v u hh) u) ∧
          row.total = fmtQty
            ((tb.hotels.map (hotelSum (df.filter (fun r => r.vendor = vd)) v u)).sum) u ∧
          row.cells.length = tb.hotels.length) := by
  constructor
  · intro row hrow
    by_cases hne : df = []
    · subst hne
      simp [create_vegetable_report_data] at hrow
    · rw [veg_rows_eq hne, mem_rows_iff] at hrow
      obtain ⟨c, hc, hbc⟩ := hrow
      obtain ⟨h1, h2, h3⟩ := buildRow_spec df
        (orderedHotels (uniqueFirst (df.map (fun r => r.hotel)))) hpos c
      refine ⟨c.1, c.2.1, ?_, ?_, ?_⟩
      · rw [← hbc, veg_hotels_eq hne]
        exact h1
      · rw [← hbc, veg_hotels_eq hne]
        exact h2
      · rw [← hbc, veg_hotels_eq hne]
        exact h3
  · intro vd tb htb row hrow
    obtain ⟨hne, -, -, ht⟩ := vendor_table_shape htb
    have hposv : ∀ r ∈ df.filter (fun r => r.vendor = vd), 0 < r.quantity :=
      fun r hr => hpos r (List.mem_filter.mp hr).1
    have hrow' : row ∈ List.insertionSort rowLe
        ((vegUnitCombos (df.filter (fun r => r.vendor = vd))).map
          (buildRow (df.filter (fun r => r.vendor = vd))
            (orderedHotels (uniqueFirst (df.map (fun r => r.hotel)))))) := by
      rw [ht] at hrow
      exact hrow
    rw [mem_rows_iff] at hrow'
    obtain ⟨c, hc, hbc⟩ := hrow'
    obtain ⟨h1, h2, h3⟩ := buildRow_spec (df.filter (fun r => r.vendor = vd))
      (orderedHotels (uniqueFirst (df.map (fun r => r.hotel)))) hposv c
    have hth : tb.hotels = orderedHotels (uniqueFirst (df.map (fun r => r.hotel))) := by
      rw [ht]
    refine ⟨c.1, c.2.1, ?_, ?_, ?_⟩
    · rw [← hbc, hth]
      exact h1
    · rw [← hbc, hth]
      exact h2
    · rw [← hbc, hth]
      exact h3

/-- C5 witness: the theorem applied at a concrete positive-quantity record
set. -/
theorem c5_totals_witness :
    (∀ r ∈ dfC5, 0 < r.quantity) ∧
      (∀ row ∈ (create_vegetable_report_data dfC5).rows, ∃ v u,
        row.cells = (create_vegetable_report_data dfC5).hotels.map
            (fun hh => fmtQty (hotelSum dfC5 v u hh) u) ∧
          row.total = fmtQty
            (((create_vegetable_report_data dfC5).hotels.map (hotelSum dfC5 v u)).sum) u ∧
          row.cells.length = (create_vegetable_report_data dfC5).hotels.length) :=
  ⟨by decide, (c5_totals dfC5 (by decide)).1⟩

/-! ### C7 -/

/-- C7 counterexample: `dfC7b` is a permutation of `dfC7a`, yet the two
vegetable pivots differ — two rows tie on the display name "Tomato" (their
Telugu names differ) and the stable sort leaves them in first-occurrence
order, so the output sequences are not identical; nor is the ordering
strict. -/
theorem c7_counterexample :
    dfC7a.Perm dfC7b ∧
      ((create_vegetable_report_data dfC7a).rows.map (fun r => r.teluguName))
        = ["T1", "T2"] ∧
      ((create_vegetable_report_data dfC7b).rows.map (fun r => r.teluguName))
        = ["T2", "T1"] ∧
      create_vegetable_report_data dfC7a ≠ create_vegetable_report_data dfC7b := by
  refine ⟨by decide, by decide, by decide, by decide⟩

/-- C7 amended: the rows of the vegetable pivot are sorted ascending (not
strictly) by display name; and whenever the output's display names are
pairwise distinct, the builder is order-independent — any permutation of
the input rows yields the identical table.  (With duplicated display
names, which require a (vegetable, unit) key carrying several secondary
names, the relative order of the tied rows follows input order.) -/
theorem c7_amended (l₁ l₂ : List Record) (hp : l₁.Perm l₂)
    (hnd : ((create_vegetable_report_data l₁).rows.map
        (fun r => r.displayName)).Nodup) :
    ((create_vegetable_report_data l₁).rows.map
        (fun r => r.displayName)).Sorted (· ≤ ·) ∧
      create_vegetable_report_data l₁ = create_vegetable_report_data l₂ := by
  constructor
  · exact List.pairwise_map.mpr (veg_rows_sorted l₁)
  · by_cases hne : l₁ = []
    · subst hne
      rw [List.Perm.eq_nil hp.symm]
    · have hne₂ : l₂ ≠ [] := fun h2 => hne (List.Perm.eq_nil (h2 ▸ hp))
      have hgh : orderedHotels (uniqueFirst (l₁.map (fun r => r.hotel)))
          = orderedHotels (uniqueFirst (l₂.map (fun r => r.hotel))) :=
        orderHotels_congr (uniqueFirst_perm (hp.map _))
      have hndA : ((List.insertionSort rowLe ((vegUnitCombos l₁).map
          (buildRow l₁ (orderedHotels (uniqueFirst (l₁.map (fun r => r.hotel))))))).map
            (fun r => r.displayName)).Nodup := by
        rw [← veg_rows_eq hne]
        exact hnd
      have hperm1 : (((vegUnitCombos l₁).map
          (buildRow l₁ (orderedHotels (uniqueFirst (l₁.map (fun r => r.hotel)))))).Perm
            ((vegUnitCombos l₂).map
              (buildRow l₁ (orderedHotels (uniqueFirst (l₁.map (fun r => r.hotel))))))) :=
        (uniqueFirst_perm (hp.map key3)).map _
      have heq2 : ((vegUnitCombos l₂).map
          (buildRow l₁ (orderedHotels (uniqueFirst (l₁.map (fun r => r.hotel))))))
            = ((vegUnitCombos l₂).map
              (buildRow l₂ (orderedHotels (uniqueFirst (l₂.map (fun r => r.hotel)))))) := by
        rw [← hgh]
        exact List.map_congr_left (fun c _ => buildRow_congr hp _ c)
      have hAB : ((List.insertionSort rowLe ((vegUnitCombos l₁).map
          (buildRow l₁ (orderedHotels (uniqueFirst (l₁.map (fun r => r.hotel))))))).Perm
            (List.insertionSort rowLe ((vegUnitCombos l₂).map
              (buildRow l₂ (orderedHotels (uniqueFirst (l₂.map (fun r => r.hotel)))))))) :=
        ((List.perm_insertionSort _ _).trans (hperm1.trans (heq2 ▸ List.Perm.refl _))).trans
          (List.perm_insertionSort _ _).symm
      rw [veg_table_shape hne, veg_table_shape hne₂, PivotTable.mk.injEq]
      exact ⟨hgh, eq_of_perm_sorted_nodup_keys hAB
        (List.sorted_insertionSort _ _) (List.sorted_insertionSort _ _) hndA⟩

/-- C7 witness: the amended theorem applied at a concrete permutation pair
with distinct display names. -/
theorem c7_amended_witness :
    dfC7w1.Perm dfC7w2 ∧
      ((create_vegetable_report_data dfC7w1).rows.map
        (fun r => r.displayName)).Nodup ∧
      create_vegetable_report_data dfC7w1 = create_vegetable_report_data dfC7w2 :=
  ⟨by decide, by decide, (c7_amended dfC7w1 dfC7w2 (by decide) (by decide)).2⟩

/-! ### C4 -/

/-- C4 counterexample: in `dfC4` the vegetable "X" has two distinct units
in the full scope and exactly one unit in vendor "V1"'s scope, yet V1's
table contains TWO rows bearing the bare name "X" (one per distinct Telugu
name), not the single row the claim requires. -/
theorem c4_counterexample :
    vegUnitsCount dfC4 "X" = 2 ∧
      vegUnitsCount (dfC4.filter (fun r => r.vendor = "V1")) "X" = 1 ∧
      ((create_vendor_report_data dfC4).map
          (fun p => (p.1, p.2.rows.map (fun r => r.displayName))))
        = [("V1", ["X", "X"]), ("V2", ["X"])] := by
  refine ⟨by decide, by decide, by decide⟩

/-- C4 amended: a vegetable appearing under two distinct units in the full
date scope yields (at least) two separate rows of the vegetable pivot with
the two distinct unit-suffixed display names; and in every vendor scope
where a vegetable appears under exactly one unit, every row generated for
it carries the bare vegetable name and there is exactly one such row per
distinct secondary name it carries in that scope (a single row when its
secondary name is unique there) — disambiguation is recomputed per
scope. -/
theorem c4_amended (df : List Record) (r₁ r₂ : Record)
    (hr₁ : r₁ ∈ df) (hr₂ : r₂ ∈ df) (hv : r₂.vegetable = r₁.vegetable)
    (hu : r₁.unit ≠ r₂.unit) :
    ((∃ row ∈ (create_vegetable_report_data df).rows,
        row.displayName = r₁.vegetable ++ " (" ++ r₁.unit ++ ")") ∧
      (∃ row ∈ (create_vegetable_report_data df).rows,
        row.displayName = r₁.vegetable ++ " (" ++ r₂.unit ++ ")") ∧
      r₁.vegetable ++ " (" ++ r₁.unit ++ ")" ≠ r₁.vegetable ++ " (" ++ r₂.unit ++ ")") ∧
      (∀ vd tb, (vd, tb) ∈ create_vendor_report_data df → ∀ v,
        vegUnitsCount (df.filter (fun r => r.vendor = vd)) v = 1 →
          (∀ c ∈ vegUnitCombos (df.filter (fun r => r.vendor = vd)), c.1 = v →
            (buildRow (df.filter (fun r => r.vendor = vd))
                (orderedHotels (uniqueFirst (df.map (fun r => r.hotel)))) c).displayName
                = v ∧
              buildRow (df.filter (fun r => r.vendor = vd))
                (orderedHotels (uniqueFirst (df.map (fun r => r.hotel)))) c ∈ tb.rows) ∧
          ((vegUnitCombos (df.filter (fun r => r.vendor = vd))).filter
              (fun c => c.1 = v)).length
            = (uniqueFirst (((df.filter (fun r => r.vendor = vd)).filter
                (fun r => r.vegetable = v)).map (fun r => r.teluguName))).length) := by
  have hne : df ≠ [] := List.ne_nil_of_mem hr₁
  have hcount : 1 < vegUnitsCount df r₁.vegetable := by
    refine one_lt_length_of_mem ?_ ?_ hu
    · rw [mem_uniqueFirst]
      exact List.mem_map.mpr ⟨r₁, List.mem_filter.mpr ⟨hr₁, by simp⟩, rfl⟩
    · rw [mem_uniqueFirst]
      exact List.mem_map.mpr ⟨r₂, List.mem_filter.mpr ⟨hr₂, by simp [hv]⟩, rfl⟩
  have hrow : ∀ r ∈ df, r.vegetable = r₁.vegetable →
      ∃ row ∈ (create_vegetable_report_data df).rows,
        row.displayName = r₁.vegetable ++ " (" ++ r.unit ++ ")" := by
    intro r hr hveg
    refine ⟨buildRow df (orderedHotels (uniqueFirst (df.map (fun x => x.hotel))))
      (key3 r), ?_, ?_⟩
    · rw [veg_rows_eq hne, mem_rows_iff]
      exact ⟨key3 r, (mem_uniqueFirst _ _).mpr (List.mem_map.mpr ⟨r, hr, rfl⟩), rfl⟩
    · show displayNameFor df r.vegetable r.unit = _
      rw [displayNameFor, hveg, if_pos hcount]
  refine ⟨⟨hrow r₁ hr₁ rfl, hrow r₂ hr₂ hv, fun heq => hu (suffixName_inj heq)⟩, ?_⟩
  intro vd tb htb v hcount1
  obtain ⟨-, -, -, ht⟩ := vendor_table_shape htb
  refine ⟨fun c hc hc1 => ⟨?_, ?_⟩, ?_⟩
  · show displayNameFor (df.filter (fun r => r.vendor = vd)) c.1 c.2.1 = v
    rw [hc1, displayNameFor, if_neg (by simp [hcount1])]
  · have htr : tb.rows = List.insertionSort rowLe
        ((vegUnitCombos (df.filter (fun r => r.vendor = vd))).map
          (buildRow (df.filter (fun r => r.vendor = vd))
            (orderedHotels (uniqueFirst (df.map (fun r => r.hotel)))))) := by
      rw [ht]
    rw [htr, mem_rows_iff]
    exact ⟨c, hc, rfl⟩
  · obtain ⟨u₀, hu₀⟩ := List.length_eq_one.mp hcount1
    have hunit : ∀ r ∈ (df.filter (fun r => r.vendor = vd)).filter
        (fun r => r.vegetable = v), r.unit = u₀ := by
      intro r hr
      have hm : r.unit ∈ uniqueFirst (((df.filter (fun r => r.vendor = vd)).filter
          (fun r => r.vegetable = v)).map (fun r => r.unit)) :=
        (mem_uniqueFirst _ _).mpr (List.mem_map.mpr ⟨r, hr, rfl⟩)
      rw [hu₀] at hm
      simpa using hm
    rw [vegUnitCombos, filter_uniqueFirst, List.filter_map]
    show (uniqueFirst (((df.filter (fun r => r.vendor = vd)).filter
        (fun r => decide (r.vegetable = v))).map key3)).length = _
    have hmapeq : ((df.filter (fun r => r.vendor = vd)).filter
          (fun r => decide (r.vegetable = v))).map key3
        = (((df.filter (fun r => r.vendor = vd)).filter
            (fun r => r.vegetable = v)).map (fun r => r.teluguName)).map
              (fun t => (v, u₀, t)) := by
      rw [List.map_map]
      refine List.map_congr_left (fun r hr => ?_)
      have hveg : r.vegetable = v := by simpa using (List.mem_filter.mp hr).2
      have hu' : r.unit = u₀ := hunit r hr
      simp [key3, hveg, hu', Function.comp]
    rw [hmapeq, uniqueFirst_map _
      (fun a b h => congrArg (fun p : String × String × String => p.2.2) h),
      List.length_map]

/-- C4 witness: the amended theorem applied at the concrete record set in
which "X" occurs under "kg" and "box". -/
theorem c4_amended_witness :
    ((⟨"A", "V1", "X", "T1", "kg", 5⟩ : Record) ∈ dfC4 ∧
        (⟨"A", "V2", "X", "T1", "box", 3⟩ : Record) ∈ dfC4) ∧
      (∃ row ∈ (create_vegetable_report_data dfC4).rows,
        row.displayName = "X" ++ " (" ++ "kg" ++ ")") :=
  ⟨⟨by decide, by decide⟩,
    (c4_amended dfC4 ⟨"A", "V1", "X", "T1", "kg", 5⟩ ⟨"A", "V2", "X", "T1", "box", 3⟩
      (by decide) (by decide) rfl (by decide)).1.1⟩

/-- C10 witness: the theorem applied at a concrete record set containing
"BHEEMILI". -/
theorem c10_bheemili_witness :
    ("BHEEMILI" ∈ dfC10.map (fun r => r.hotel)) ∧
    ("BHEEMILI" ∉ desired_hotel_order.filter
        (fun x => x ∈ uniqueFirst (dfC10.map (fun r => r.hotel))) ∧
      "BHEEMILI" ∈ List.insertionSort (· ≤ ·)
        ((uniqueFirst (dfC10.map (fun r => r.hotel))).filter
          (fun x => ¬ x ∈ desired_hotel_order))) :=
  ⟨by decide, (c10_bheemili dfC10 (by decide)).2.2⟩

end Hotel

